import Mathlib

/-!
Verification of the DFA execution engine of the Automata-Simulator repository
(`automata-2.py`): the `DFA` class, its two step-by-step simulators
`simulate_dfa_ab` and `simulate_dfa_01`, the boolean checker `DFA.accepts`,
and the two hardcoded transition tables.

State identifiers are Python strings, modelled as `String`; input symbols are
single characters, modelled as `Char`.  Python sets are modelled as lists with
membership (`in`) as list membership and set equality as the extensional test
`pySetEq`.  The Python dict literal for a transition table is modelled as the
ordered list of its entries, with lookup (`dict.get`) returning the value of
the LAST entry for a key, which is exactly the last-write-wins semantics of a
Python dict literal with duplicate keys.
-/

set_option maxRecDepth 4000

namespace AutomataSim

/-- The `DFA` class of `automata-2.py` (lines 86-94): seven fields, assigned
verbatim by `__init__`. -/
structure DFA where
  states_ab : List String
  states_01 : List String
  alphabet : List Char
  transition_function : List ((String × Char) × String)
  start_state : String
  accept_states_ab : List String
  accept_states_01 : List String
deriving DecidableEq, Repr

/-- Model of `DFA.__init__` (lines 87-94): stores the seven arguments in the seven
fields.  It performs no validation of any kind. -/
def DFA.init (states_ab states_01 : List String) (alphabet : List Char)
    (transition_function : List ((String × Char) × String)) (start_state : String)
    (accept_states_ab accept_states_01 : List String) : DFA :=
  ⟨states_ab, states_01, alphabet, transition_function, start_state,
   accept_states_ab, accept_states_01⟩

/-- Model of `dict.get` on a Python dict built from an ordered list of `key: value`
entries: a later entry for the same key silently overwrites an earlier one
(last write wins), and a missing key yields `None`. -/
def dictGet : List ((String × Char) × String) → String × Char → Option String
  | [], _ => none
  | entry :: rest, key =>
    match dictGet rest key with
    | some v => some v
    | none => if entry.1 = key then some entry.2 else none

/-- The data interpolated into the two error f-strings of the simulators:
`f"Invalid symbol '{symbol}'"` (line 114) carries only the symbol;
`f"No transition from {current_state} on '{symbol}'"` (line 118) carries the
current state and the symbol.  The two shapes are distinguishable. -/
inductive SimError where
  | invalidSymbol (symbol : Char)
  | noTransition (state : String) (symbol : Char)
deriving DecidableEq, Repr

/-- The triple `(path, accepted, error)` returned by `simulate_dfa_ab` and
`simulate_dfa_01`.  `path` is the list of `(state, symbol)` pairs, where the
symbol is `none` for the initial entry. -/
structure SimResult where
  path : List (String × Option Char)
  accepted : Bool
  error : Option SimError
deriving DecidableEq, Repr

/-- The loop body shared verbatim by `simulate_dfa_ab` (lines 107-128) and
`simulate_dfa_01` (lines 130-151); the two functions differ only in which
accept-state field is consulted after the loop, so that field is the
`acceptStates` parameter here.  For each symbol: if it is not in the alphabet,
return the partial path with an invalid-symbol error; if the transition table
has no entry for (current state, symbol), return the partial path with a
no-transition error; otherwise append `(next_state, symbol)` to the path and
continue.  After the loop, acceptance is membership of the final state in the
accept states, and the error is `None`. -/
def simGo (dfa : DFA) (acceptStates : List String) :
    List Char → String → List (String × Option Char) → SimResult
  | [], currentState, path => ⟨path, decide (currentState ∈ acceptStates), none⟩
  | symbol :: rest, currentState, path =>
    if symbol ∉ dfa.alphabet then
      ⟨path, false, some (SimError.invalidSymbol symbol)⟩
    else
      match dictGet dfa.transition_function (currentState, symbol) with
      | none => ⟨path, false, some (SimError.noTransition currentState symbol)⟩
      | some nextState => simGo dfa acceptStates rest nextState (path ++ [(nextState, some symbol)])

/-- Model of `simulate_dfa_ab` (lines 107-128): start from `dfa.start_state` with the
one-element path `[(start_state, None)]` and run the loop; the final
membership test uses `dfa.accept_states_ab`. -/
def simulate_dfa_ab (dfa : DFA) (input_string : List Char) : SimResult :=
  simGo dfa dfa.accept_states_ab input_string dfa.start_state [(dfa.start_state, none)]

/-- Model of `simulate_dfa_01` (lines 130-151): identical to `simulate_dfa_ab` except
that the final membership test uses `dfa.accept_states_01`. -/
def simulate_dfa_01 (dfa : DFA) (input_string : List Char) : SimResult :=
  simGo dfa dfa.accept_states_01 input_string dfa.start_state [(dfa.start_state, none)]

/-- Python set equality (`==` between two sets): same elements, regardless of
order or duplication. -/
def pySetEq (xs ys : List Char) : Bool :=
  xs.all (fun x => x ∈ ys) && ys.all (fun y => y ∈ xs)

/-- The loop of `DFA.accepts` (lines 96-104): walk the string, returning
`False` on an invalid symbol or a missing transition; after the loop return
membership of the final state in `accept_states_ab` when the instance's
alphabet equals the set `{a, b}`, else membership in `accept_states_01`. -/
def acceptsGo (dfa : DFA) : List Char → String → Bool
  | [], currentState =>
    if pySetEq dfa.alphabet ['a', 'b'] then decide (currentState ∈ dfa.accept_states_ab)
    else decide (currentState ∈ dfa.accept_states_01)
  | symbol :: rest, currentState =>
    if symbol ∉ dfa.alphabet then false
    else
      match dictGet dfa.transition_function (currentState, symbol) with
      | none => false
      | some nextState => acceptsGo dfa rest nextState

/-- Model of `DFA.accepts` (lines 96-104). -/
def DFA.accepts (dfa : DFA) (input_string : List Char) : Bool :=
  acceptsGo dfa input_string dfa.start_state

/-- The state reached from `currentState` by iterating the same
`dict.get` lookups the simulators use, one per input symbol; `none` when some
lookup has no entry.  This is a specification device used to phrase "every
(current state, symbol) pair reached has an entry in the transition table". -/
def walkFrom (dfa : DFA) : String → List Char → Option String
  | currentState, [] => some currentState
  | currentState, symbol :: rest =>
    match dictGet dfa.transition_function (currentState, symbol) with
    | none => none
    | some nextState => walkFrom dfa nextState rest

/-- Transcription of `states_ab` (lines 227-230). -/
def states_ab : List String :=
  ["0", "1", "2", "3", "4", "5", "6", "7", "8", "9", "10", "11", "12", "13",
   "14", "15", "16", "17", "18", "19", "20", "21", "22", "T1", "T2"]

/-- Transcription of `states_01` (lines 233-237). -/
def states_01 : List String :=
  ["0", "1", "2", "3", "4", "5", "6", "7", "8", "9", "10", "11", "12", "13",
   "14", "15", "16", "17", "18", "19", "20", "21", "22", "23", "24", "25", "26",
   "27", "28", "29", "30", "31", "32", "33", "34", "T1", "T2", "T3"]

/-- Transcription of `transition_function_ab` (lines 240-294), as the ordered entry list of the
dict literal.  The duplicated keys of the source are transcribed verbatim:
`('1','b')` appears with targets `'2'` then `'3'`, `('2','a')` with `'1'` then
`'3'`, and `('16','b')` with `'18'` then `'20'`. -/
def transition_function_ab : List ((String × Char) × String) :=
  [(("0", 'b'), "1"),
   (("0", 'a'), "2"),
   (("1", 'b'), "2"),
   (("1", 'a'), "T1"),
   (("2", 'b'), "T1"),
   (("T1", 'a'), "T1"),
   (("T1", 'b'), "T1"),
   (("2", 'a'), "1"),
   (("1", 'b'), "3"),
   (("2", 'a'), "3"),
   (("3", 'b'), "5"),
   (("3", 'a'), "4"),
   (("4", 'b'), "6"),
   (("4", 'a'), "T2"),
   (("T2", 'a'), "T2"),
   (("T2", 'b'), "T2"),
   (("5", 'a'), "7"),
   (("5", 'b'), "8"),
   (("6", 'a'), "9"),
   (("6", 'b'), "T2"),
   (("7", 'b'), "9"),
   (("8", 'b'), "9"),
   (("8", 'a'), "T2"),
   (("9", 'a'), "10"),
   (("9", 'b'), "11"),
   (("10", 'a'), "12"),
   (("10", 'b'), "11"),
   (("11", 'b'), "12"),
   (("11", 'a'), "10"),
   (("12", 'b'), "13"),
   (("13", 'b'), "12"),
   (("13", 'a'), "10"),
   (("12", 'a'), "14"),
   (("14", 'b'), "14"),
   (("14", 'a'), "15"),
   (("15", 'b'), "15"),
   (("15", 'a'), "16"),
   (("16", 'b'), "18"),
   (("16", 'a'), "17"),
   (("17", 'a'), "18"),
   (("17", 'b'), "16"),
   (("18", 'a'), "19"),
   (("18", 'b'), "16"),
   (("16", 'b'), "20"),
   (("20", 'b'), "21"),
   (("20", 'a'), "16"),
   (("21", 'b'), "22"),
   (("21", 'a'), "16"),
   (("22", 'b'), "22"),
   (("22", 'a'), "22"),
   (("19", 'a'), "19"),
   (("19", 'b'), "19")]

/-- Transcription of `transition_function_01` (lines 296-374), as the ordered entry list of the
dict literal. -/
def transition_function_01 : List ((String × Char) × String) :=
  [(("0", '1'), "0"),
   (("0", '0'), "1"),
   (("1", '1'), "1"),
   (("1", '0'), "2"),
   (("2", '1'), "3"),
   (("2", '0'), "4"),
   (("3", '1'), "5"),
   (("4", '1'), "T1"),
   (("4", '0'), "5"),
   (("3", '0'), "T1"),
   (("T1", '1'), "T1"),
   (("T1", '0'), "T1"),
   (("5", '1'), "6"),
   (("5", '0'), "9"),
   (("6", '0'), "7"),
   (("6", '1'), "12"),
   (("7", '0'), "5"),
   (("7", '1'), "10"),
   (("9", '1'), "8"),
   (("8", '1'), "5"),
   (("8", '0'), "11"),
   (("11", '1'), "9"),
   (("9", '0'), "13"),
   (("12", '1'), "14"),
   (("14", '1'), "18"),
   (("14", '0'), "T1"),
   (("12", '0'), "15"),
   (("15", '0'), "19"),
   (("15", '1'), "T1"),
   (("13", '1'), "16"),
   (("16", '1'), "20"),
   (("16", '0'), "T2"),
   (("13", '0'), "17"),
   (("17", '0'), "21"),
   (("17", '1'), "T2"),
   (("T2", '1'), "T2"),
   (("T2", '0'), "T2"),
   (("10", '1'), "18"),
   (("10", '0'), "6"),
   (("11", '0'), "21"),
   (("18", '1'), "22"),
   (("18", '0'), "23"),
   (("19", '0'), "23"),
   (("19", '1'), "22"),
   (("20", '0'), "23"),
   (("20", '1'), "22"),
   (("21", '0'), "23"),
   (("21", '1'), "22"),
   (("22", '0'), "25"),
   (("22", '1'), "24"),
   (("24", '0'), "24"),
   (("24", '1'), "28"),
   (("25", '1'), "29"),
   (("25", '0'), "T2"),
   (("29", '1'), "30"),
   (("28", '0'), "28"),
   (("28", '1'), "30"),
   (("23", '1'), "30"),
   (("23", '0'), "26"),
   (("26", '1'), "30"),
   (("26", '0'), "27"),
   (("27", '0'), "21"),
   (("27", '1'), "30"),
   (("30", '1'), "31"),
   (("30", '0'), "30"),
   (("31", '1'), "32"),
   (("31", '0'), "31"),
   (("32", '1'), "33"),
   (("32", '0'), "34"),
   (("33", '1'), "32"),
   (("33", '0'), "T3"),
   (("34", '0'), "32"),
   (("34", '1'), "T3"),
   (("T3", '1'), "T3"),
   (("T3", '0'), "T3")]

/-- Transcription of `start_state` (line 375). -/
def start_state : String := "0"

/-- Transcription of `accept_states_ab` (line 376). -/
def accept_states_ab : List String := ["19", "22"]

/-- Transcription of `accept_states_01` (line 377). -/
def accept_states_01 : List String := ["30", "31", "32"]

/-- The DFA instance built for the "a and b" language (line 392):
`DFA(states_ab, states_01, {'a','b'}, transition_function_ab, start_state,
accept_states_ab, accept_states_01)`. -/
def dfaAB : DFA :=
  DFA.init states_ab states_01 ['a', 'b'] transition_function_ab start_state
    accept_states_ab accept_states_01

/-- The DFA instance built for the "0 and 1" language (line 478):
`DFA(states_ab, states_01, {'0','1'}, transition_function_01, start_state,
accept_states_ab, accept_states_01)`. -/
def dfa01 : DFA :=
  DFA.init states_ab states_01 ['0', '1'] transition_function_01 start_state
    accept_states_ab accept_states_01


/-- The accumulated path parameter is a pure accumulator: the loop appends
its steps after it and the verdict does not depend on it. -/
theorem simGo_frame (dfa : DFA) (acc : List String) :
    ∀ (input : List Char) (cur : String) (p : List (String × Option Char)),
    simGo dfa acc input cur p =
      ⟨p ++ (simGo dfa acc input cur []).path, (simGo dfa acc input cur []).accepted,
       (simGo dfa acc input cur []).error⟩ := by
  intro input
  induction input with
  | nil =>
    intro cur p
    simp [simGo]
  | cons s rest ih =>
    intro cur p
    by_cases hs : s ∈ dfa.alphabet
    · cases hlk : dictGet dfa.transition_function (cur, s) with
      | none => simp [simGo, hs, hlk]
      | some next =>
        have h1 : simGo dfa acc (s :: rest) cur p =
            simGo dfa acc rest next (p ++ [(next, some s)]) := by
          simp [simGo, hs, hlk]
        have h2 : simGo dfa acc (s :: rest) cur [] =
            simGo dfa acc rest next [(next, some s)] := by
          simp [simGo, hs, hlk]
        rw [h1, h2, ih next (p ++ [(next, some s)]), ih next [(next, some s)]]
        simp
    · simp [simGo, hs]

/-- When every symbol is in the alphabet and every lookup succeeds (the walk
reaches `fin`), the loop consumes the whole input with no error and decides
acceptance by membership of `fin` in the accept states. -/
theorem simGo_complete (dfa : DFA) (acc : List String) :
    ∀ (input : List Char) (cur : String) (p : List (String × Option Char)) (fin : String),
    (∀ c ∈ input, c ∈ dfa.alphabet) → walkFrom dfa cur input = some fin →
    (simGo dfa acc input cur p).error = none ∧
    (simGo dfa acc input cur p).accepted = decide (fin ∈ acc) ∧
    (simGo dfa acc input cur p).path.length = p.length + input.length := by
  intro input
  induction input with
  | nil =>
    intro cur p fin h hw
    simp [walkFrom] at hw
    subst hw
    simp [simGo]
  | cons s rest ih =>
    intro cur p fin h hw
    have hs : s ∈ dfa.alphabet := h s (List.mem_cons_self s rest)
    cases hlk : dictGet dfa.transition_function (cur, s) with
    | none => simp [walkFrom, hlk] at hw
    | some next =>
      simp only [walkFrom, hlk] at hw
      have hmain : simGo dfa acc (s :: rest) cur p =
          simGo dfa acc rest next (p ++ [(next, some s)]) := by
        simp [simGo, hs, hlk]
      rw [hmain]
      obtain ⟨e1, e2, e3⟩ := ih next (p ++ [(next, some s)]) fin
        (fun c hc => h c (List.mem_cons_of_mem s hc)) hw
      refine ⟨e1, e2, ?_⟩
      rw [e3]
      simp
      omega

/-- Running the loop on `pre ++ suf` from a state from which `pre` walks
successfully to `mid` first appends one path entry per symbol of `pre`, then
continues as the loop on `suf` from `mid`. -/
theorem simGo_prefix (dfa : DFA) (acc : List String) :
    ∀ (pre suf : List Char) (cur : String) (p : List (String × Option Char)) (mid : String),
    (∀ c ∈ pre, c ∈ dfa.alphabet) → walkFrom dfa cur pre = some mid →
    ∃ q : List (String × Option Char), q.length = pre.length ∧
      simGo dfa acc (pre ++ suf) cur p = simGo dfa acc suf mid (p ++ q) := by
  intro pre
  induction pre with
  | nil =>
    intro suf cur p mid h hw
    simp [walkFrom] at hw
    subst hw
    exact ⟨[], rfl, by simp⟩
  | cons s pre ih =>
    intro suf cur p mid h hw
    have hs : s ∈ dfa.alphabet := h s (List.mem_cons_self s pre)
    cases hlk : dictGet dfa.transition_function (cur, s) with
    | none => simp [walkFrom, hlk] at hw
    | some next =>
      simp only [walkFrom, hlk] at hw
      obtain ⟨q, hq, heq⟩ := ih suf next (p ++ [(next, some s)]) mid
        (fun c hc => h c (List.mem_cons_of_mem s hc)) hw
      refine ⟨(next, some s) :: q, by simp [hq], ?_⟩
      calc simGo dfa acc ((s :: pre) ++ suf) cur p
          = simGo dfa acc (pre ++ suf) next (p ++ [(next, some s)]) := by
            simp [simGo, hs, hlk]
        _ = simGo dfa acc suf mid ((p ++ [(next, some s)]) ++ q) := heq
        _ = simGo dfa acc suf mid (p ++ ((next, some s) :: q)) := by simp

/-- Shape of the steps appended by the loop when started with an empty
accumulator: at most one per input symbol, exactly one per symbol when no
error occurs, and the `i`-th appended step records the state the walk reaches
after `i + 1` symbols together with the `i`-th input symbol. -/
theorem simGo_tail_spec (dfa : DFA) (acc : List String) :
    ∀ (input : List Char) (cur : String),
    (simGo dfa acc input cur []).path.length ≤ input.length ∧
    ((simGo dfa acc input cur []).error = none →
      (simGo dfa acc input cur []).path.length = input.length) ∧
    ∀ i < (simGo dfa acc input cur []).path.length,
      ∃ st c, input.get? i = some c ∧
        walkFrom dfa cur (input.take (i + 1)) = some st ∧
        (simGo dfa acc input cur []).path.get? i = some (st, some c) := by
  intro input
  induction input with
  | nil =>
    intro cur
    refine ⟨by simp [simGo], by simp [simGo], ?_⟩
    intro i hi
    simp [simGo] at hi
  | cons s rest ih =>
    intro cur
    by_cases hs : s ∈ dfa.alphabet
    · cases hlk : dictGet dfa.transition_function (cur, s) with
      | none =>
        refine ⟨by simp [simGo, hs, hlk], by simp [simGo, hs, hlk], ?_⟩
        intro i hi
        simp [simGo, hs, hlk] at hi
      | some next =>
        have hstep : simGo dfa acc (s :: rest) cur [] =
            ⟨(next, some s) :: (simGo dfa acc rest next []).path,
             (simGo dfa acc rest next []).accepted,
             (simGo dfa acc rest next []).error⟩ := by
          have h1 : simGo dfa acc (s :: rest) cur [] =
              simGo dfa acc rest next [(next, some s)] := by
            simp [simGo, hs, hlk]
          rw [h1, simGo_frame dfa acc rest next [(next, some s)]]
          simp
        obtain ⟨ih1, ih2, ih3⟩ := ih next
        rw [hstep]
        refine ⟨by simpa using ih1, by simpa using ih2, ?_⟩
        intro i hi
        cases i with
        | zero =>
          exact ⟨next, s, rfl, by simp [walkFrom, hlk], rfl⟩
        | succ j =>
          simp only [List.length_cons, Nat.succ_lt_succ_iff] at hi
          obtain ⟨st, c, hc, hw, hp⟩ := ih3 j hi
          refine ⟨st, c, by simpa using hc, ?_, by simpa using hp⟩
          have htake : (s :: rest).take (j + 1 + 1) = s :: rest.take (j + 1) := rfl
          rw [htake]
          simp [walkFrom, hlk, hw]
    · refine ⟨by simp [simGo, hs], by simp [simGo, hs], ?_⟩
      intro i hi
      simp [simGo, hs] at hi

/-- When some input symbol is outside the alphabet the loop cannot finish:
it stops with some error (invalid symbol, or no-transition if a missing table
entry is hit at an earlier position) and `accepted = false`. -/
theorem simGo_bad_symbol (dfa : DFA) (acc : List String) :
    ∀ (input : List Char) (cur : String) (p : List (String × Option Char)),
    (∃ c ∈ input, c ∉ dfa.alphabet) →
    (simGo dfa acc input cur p).error ≠ none ∧
    (simGo dfa acc input cur p).accepted = false := by
  intro input
  induction input with
  | nil =>
    intro cur p h
    simp at h
  | cons s rest ih =>
    intro cur p h
    by_cases hs : s ∈ dfa.alphabet
    · obtain ⟨c, hc, hcbad⟩ := h
      have hcrest : c ∈ rest := by
        rcases List.mem_cons.mp hc with rfl | hr
        · exact absurd hs hcbad
        · exact hr
      cases hlk : dictGet dfa.transition_function (cur, s) with
      | none => simp [simGo, hs, hlk]
      | some next =>
        have hmain : simGo dfa acc (s :: rest) cur p =
            simGo dfa acc rest next (p ++ [(next, some s)]) := by
          simp [simGo, hs, hlk]
        rw [hmain]
        exact ih next (p ++ [(next, some s)]) ⟨c, hcrest, hcbad⟩
    · simp [simGo, hs]

/-- Replacing the two declared-state fields never changes the loop: the
simulators read only the alphabet, the transition table, the start state and
the accept-state fields. -/
theorem simGo_states_irrel (dfa : DFA) (s1 s2 : List String) (acc : List String) :
    ∀ (input : List Char) (cur : String) (p : List (String × Option Char)),
    simGo { dfa with states_ab := s1, states_01 := s2 } acc input cur p =
      simGo dfa acc input cur p := by
  intro input
  induction input with
  | nil => intro cur p; rfl
  | cons s rest ih =>
    intro cur p
    have hal : ({ dfa with states_ab := s1, states_01 := s2 } : DFA).alphabet =
        dfa.alphabet := rfl
    have htf : ({ dfa with states_ab := s1, states_01 := s2 } : DFA).transition_function =
        dfa.transition_function := rfl
    by_cases hs : s ∈ dfa.alphabet
    · cases hlk : dictGet dfa.transition_function (cur, s) with
      | none => simp [simGo, hal, htf, hs, hlk]
      | some next => simp [simGo, hal, htf, hs, hlk, ih next]
    · simp [simGo, hal, htf, hs]

/-- The loop of `DFA.accepts` returns `True` exactly when the matching
simulator loop (accept states chosen by the alphabet test) finishes with
`accepted = true` and no error. -/
theorem acceptsGo_agrees (dfa : DFA) (acc : List String)
    (hacc : acc = if pySetEq dfa.alphabet ['a', 'b'] then dfa.accept_states_ab
      else dfa.accept_states_01) :
    ∀ (input : List Char) (cur : String) (p : List (String × Option Char)),
    acceptsGo dfa input cur = true ↔
      ((simGo dfa acc input cur p).accepted = true ∧
       (simGo dfa acc input cur p).error = none) := by
  intro input
  induction input with
  | nil =>
    intro cur p
    subst hacc
    by_cases hset : pySetEq dfa.alphabet ['a', 'b'] = true
    · simp [acceptsGo, simGo, hset]
    · simp [acceptsGo, simGo, hset]
  | cons s rest ih =>
    intro cur p
    by_cases hs : s ∈ dfa.alphabet
    · cases hlk : dictGet dfa.transition_function (cur, s) with
      | none => simp [acceptsGo, simGo, hs, hlk]
      | some next =>
        have hmain : simGo dfa acc (s :: rest) cur p =
            simGo dfa acc rest next (p ++ [(next, some s)]) := by
          simp [simGo, hs, hlk]
        have haccmain : acceptsGo dfa (s :: rest) cur = acceptsGo dfa rest next := by
          simp [acceptsGo, hs, hlk]
        rw [hmain, haccmain]
        exact ih next (p ++ [(next, some s)])
    · simp [acceptsGo, simGo, hs]

/-- C1: for every definition and input string, if every symbol of the string
is in the definition's alphabet and every (current state, symbol) pair reached
has an entry in the transition table (the walk reaches `fin`), then both
simulators consume the entire string, return `error = none`, and return
`accepted = true` iff the final state is a member of the respective accept
states — even when a trap state is entered partway through, since nothing in
the hypotheses or the loop stops the walk early. -/
theorem simulate_total_consumption (dfa : DFA) (input : List Char) (fin : String)
    (halpha : ∀ c ∈ input, c ∈ dfa.alphabet)
    (hwalk : walkFrom dfa dfa.start_state input = some fin) :
    ((simulate_dfa_ab dfa input).error = none ∧
     (simulate_dfa_ab dfa input).path.length = input.length + 1 ∧
     ((simulate_dfa_ab dfa input).accepted = true ↔ fin ∈ dfa.accept_states_ab)) ∧
    ((simulate_dfa_01 dfa input).error = none ∧
     (simulate_dfa_01 dfa input).path.length = input.length + 1 ∧
     ((simulate_dfa_01 dfa input).accepted = true ↔ fin ∈ dfa.accept_states_01)) := by
  obtain ⟨a1, a2, a3⟩ := simGo_complete dfa dfa.accept_states_ab input dfa.start_state
    [(dfa.start_state, none)] fin halpha hwalk
  obtain ⟨b1, b2, b3⟩ := simGo_complete dfa dfa.accept_states_01 input dfa.start_state
    [(dfa.start_state, none)] fin halpha hwalk
  refine ⟨⟨a1, ?_, ?_⟩, ⟨b1, ?_, ?_⟩⟩
  · simp only [simulate_dfa_ab]
    rw [a3]
    simp only [List.length_singleton]
    omega
  · simp only [simulate_dfa_ab]
    simp [a2]
  · simp only [simulate_dfa_01]
    rw [b3]
    simp only [List.length_singleton]
    omega
  · simp only [simulate_dfa_01]
    simp [b2]

/-- Witness for C1 at a concrete input that passes through the trap state
`T1` and still gets fully consumed. -/
theorem simulate_total_consumption_witness :
    ((simulate_dfa_ab dfaAB ['b', 'a', 'a']).error = none ∧
     (simulate_dfa_ab dfaAB ['b', 'a', 'a']).path.length = 4 ∧
     ((simulate_dfa_ab dfaAB ['b', 'a', 'a']).accepted = true ↔
       "T1" ∈ dfaAB.accept_states_ab)) ∧
    ((simulate_dfa_01 dfaAB ['b', 'a', 'a']).error = none ∧
     (simulate_dfa_01 dfaAB ['b', 'a', 'a']).path.length = 4 ∧
     ((simulate_dfa_01 dfaAB ['b', 'a', 'a']).accepted = true ↔
       "T1" ∈ dfaAB.accept_states_01)) :=
  simulate_total_consumption dfaAB ['b', 'a', 'a'] "T1" (by decide) (by decide)

/-- C2: the trace of `simulate_dfa_ab` has length `1 + k` where `k` is the
number of symbols consumed before the first error (equal to the input length
when no error occurs); element 0 is `(start_state, none)` and element `i + 1`
records the state the table walk reaches after `i + 1` symbols, paired with
the `i`-th input symbol. -/
theorem simulate_trace_shape (dfa : DFA) (input : List Char) :
    ∃ k, k ≤ input.length ∧
      (simulate_dfa_ab dfa input).path.length = 1 + k ∧
      ((simulate_dfa_ab dfa input).error = none → k = input.length) ∧
      (simulate_dfa_ab dfa input).path.get? 0 = some (dfa.start_state, none) ∧
      ∀ i < k, ∃ st c, input.get? i = some c ∧
        walkFrom dfa dfa.start_state (input.take (i + 1)) = some st ∧
        (simulate_dfa_ab dfa input).path.get? (i + 1) = some (st, some c) := by
  have hrw : simulate_dfa_ab dfa input =
      ⟨(dfa.start_state, none) ::
         (simGo dfa dfa.accept_states_ab input dfa.start_state []).path,
       (simGo dfa dfa.accept_states_ab input dfa.start_state []).accepted,
       (simGo dfa dfa.accept_states_ab input dfa.start_state []).error⟩ := by
    rw [simulate_dfa_ab, simGo_frame]
    simp
  obtain ⟨h1, h2, h3⟩ := simGo_tail_spec dfa dfa.accept_states_ab input dfa.start_state
  refine ⟨(simGo dfa dfa.accept_states_ab input dfa.start_state []).path.length,
    h1, ?_, ?_, ?_, ?_⟩
  · rw [hrw]
    simp only [List.length_cons]
    omega
  · rw [hrw]
    exact h2
  · rw [hrw]
    rfl
  · intro i hi
    obtain ⟨st, c, hc, hw, hp⟩ := h3 i hi
    refine ⟨st, c, hc, hw, ?_⟩
    rw [hrw]
    simpa using hp

/-- Counterexample for C3: the claim says the invalid-symbol error carries the
offending symbol AND its position, but the code's error
(`f"Invalid symbol '{symbol}'"`) interpolates only the symbol: the runs on
`"c"` (offense at position 0, partial trace of length 1) and on `"ac"`
(offense at position 1, partial trace of length 2) return identical errors,
so the error cannot carry the position. -/
theorem invalid_symbol_error_omits_position :
    (simulate_dfa_ab dfaAB ['c']).error = (simulate_dfa_ab dfaAB ['a', 'c']).error ∧
    (simulate_dfa_ab dfaAB ['c']).error = some (SimError.invalidSymbol 'c') ∧
    (simulate_dfa_ab dfaAB ['c']).path.length = 1 ∧
    (simulate_dfa_ab dfaAB ['a', 'c']).path.length = 2 := by decide

/-- C3 (amended): when the first symbol not in the alphabet sits at position
`p` and all earlier symbols were consumed successfully, the simulator stops
immediately with an invalid-symbol error carrying the offending symbol (the
position is not part of the error; it is recoverable as the partial trace's
length minus one), the trace is exactly the `p + 1` steps completed so far,
and `accepted = false`. -/
theorem invalid_symbol_error_partial_trace (dfa : DFA) (input : List Char) (p : Nat)
    (c : Char) (st : String)
    (hc : input.get? p = some c) (hbad : c ∉ dfa.alphabet)
    (hpre : ∀ x ∈ input.take p, x ∈ dfa.alphabet)
    (hwalk : walkFrom dfa dfa.start_state (input.take p) = some st) :
    (simulate_dfa_ab dfa input).error = some (SimError.invalidSymbol c) ∧
    (simulate_dfa_ab dfa input).accepted = false ∧
    (simulate_dfa_ab dfa input).path.length = p + 1 := by
  obtain ⟨hp, hget⟩ := List.get?_eq_some.mp hc
  have hdecomp : input = input.take p ++ (c :: input.drop (p + 1)) := by
    conv_lhs => rw [← List.take_append_drop p input]
    rw [List.drop_eq_getElem_cons hp]
    congr 2
  obtain ⟨q, hq, heq⟩ := simGo_prefix dfa dfa.accept_states_ab (input.take p)
    (c :: input.drop (p + 1)) dfa.start_state [(dfa.start_state, none)] st hpre hwalk
  have hfin : simulate_dfa_ab dfa input =
      ⟨[(dfa.start_state, none)] ++ q, false, some (SimError.invalidSymbol c)⟩ := by
    rw [simulate_dfa_ab]
    conv_lhs => rw [hdecomp]
    rw [heq]
    simp [simGo, hbad]
  rw [hfin]
  refine ⟨rfl, rfl, ?_⟩
  simp only [List.length_append, List.length_singleton, hq, List.length_take]
  omega

/-- Witness for C3 (amended) at the input `"ac"`: the offense is at position 1
after one successful step. -/
theorem invalid_symbol_error_partial_trace_witness :
    (simulate_dfa_ab dfaAB ['a', 'c']).error = some (SimError.invalidSymbol 'c') ∧
    (simulate_dfa_ab dfaAB ['a', 'c']).accepted = false ∧
    (simulate_dfa_ab dfaAB ['a', 'c']).path.length = 2 :=
  invalid_symbol_error_partial_trace dfaAB ['a', 'c'] 1 'c' "2"
    (by decide) (by decide) (by decide) (by decide)

/-- C4: when the current symbol is in the alphabet but the transition table
has no entry for (current state, symbol), the simulator stops immediately with
a no-transition error naming the current state and the symbol, the trace is
the `p + 1` steps completed so far, `accepted = false`, and the error is
distinguishable from every invalid-symbol error. -/
theorem no_transition_error_partial_trace (dfa : DFA) (input : List Char) (p : Nat)
    (c : Char) (st : String)
    (hc : input.get? p = some c) (hin : c ∈ dfa.alphabet)
    (hpre : ∀ x ∈ input.take p, x ∈ dfa.alphabet)
    (hwalk : walkFrom dfa dfa.start_state (input.take p) = some st)
    (hmiss : dictGet dfa.transition_function (st, c) = none) :
    (simulate_dfa_ab dfa input).error = some (SimError.noTransition st c) ∧
    (simulate_dfa_ab dfa input).accepted = false ∧
    (simulate_dfa_ab dfa input).path.length = p + 1 ∧
    ∀ c2 : Char, (simulate_dfa_ab dfa input).error ≠ some (SimError.invalidSymbol c2) := by
  obtain ⟨hp, hget⟩ := List.get?_eq_some.mp hc
  have hdecomp : input = input.take p ++ (c :: input.drop (p + 1)) := by
    conv_lhs => rw [← List.take_append_drop p input]
    rw [List.drop_eq_getElem_cons hp]
    congr 2
  obtain ⟨q, hq, heq⟩ := simGo_prefix dfa dfa.accept_states_ab (input.take p)
    (c :: input.drop (p + 1)) dfa.start_state [(dfa.start_state, none)] st hpre hwalk
  have hfin : simulate_dfa_ab dfa input =
      ⟨[(dfa.start_state, none)] ++ q, false, some (SimError.noTransition st c)⟩ := by
    rw [simulate_dfa_ab]
    conv_lhs => rw [hdecomp]
    rw [heq]
    simp [simGo, hin, hmiss]
  rw [hfin]
  refine ⟨rfl, rfl, ?_, ?_⟩
  · simp only [List.length_append, List.length_singleton, hq, List.length_take]
    omega
  · intro c2 hcon
    simp at hcon

/-- Witness for C4 at the input `"bbbaa"`: after four steps the walk is in
state `7`, which has no transition on `a`. -/
theorem no_transition_error_partial_trace_witness :
    (simulate_dfa_ab dfaAB ['b', 'b', 'b', 'a', 'a']).error =
      some (SimError.noTransition "7" 'a') ∧
    (simulate_dfa_ab dfaAB ['b', 'b', 'b', 'a', 'a']).accepted = false ∧
    (simulate_dfa_ab dfaAB ['b', 'b', 'b', 'a', 'a']).path.length = 5 ∧
    ∀ c2 : Char, (simulate_dfa_ab dfaAB ['b', 'b', 'b', 'a', 'a']).error ≠
      some (SimError.invalidSymbol c2) :=
  no_transition_error_partial_trace dfaAB ['b', 'b', 'b', 'a', 'a'] 4 'a' "7"
    (by decide) (by decide) (by decide) (by decide) (by decide)

/-- Counterexample for C5: the claim says that ANY out-of-alphabet symbol
forces an InvalidSymbol error, but a missing table entry hit at an earlier
position wins: on `"bbbaac"` the symbol `c` is outside the alphabet, yet the
walk dies first at state `7` on `a` (no table entry), so the error is the
no-transition one. -/
theorem alphabet_gating_kind_counterexample :
    ('c' ∈ (['b', 'b', 'b', 'a', 'a', 'c'] : List Char)) ∧
    'c' ∉ dfaAB.alphabet ∧
    (simulate_dfa_ab dfaAB ['b', 'b', 'b', 'a', 'a', 'c']).error =
      some (SimError.noTransition "7" 'a') ∧
    (simulate_dfa_ab dfaAB ['b', 'b', 'b', 'a', 'a', 'c']).accepted = false := by
  decide

/-- C5 (amended): if any symbol of the input is outside the definition's
alphabet, both simulators report some error (InvalidSymbol, or NoTransition
when a missing table entry is hit at an earlier position) and
`accepted = false`. -/
theorem alphabet_gating_rejects (dfa : DFA) (input : List Char)
    (h : ∃ c ∈ input, c ∉ dfa.alphabet) :
    (simulate_dfa_ab dfa input).error ≠ none ∧
    (simulate_dfa_ab dfa input).accepted = false ∧
    (simulate_dfa_01 dfa input).error ≠ none ∧
    (simulate_dfa_01 dfa input).accepted = false := by
  obtain ⟨a1, a2⟩ := simGo_bad_symbol dfa dfa.accept_states_ab input dfa.start_state
    [(dfa.start_state, none)] h
  obtain ⟨b1, b2⟩ := simGo_bad_symbol dfa dfa.accept_states_01 input dfa.start_state
    [(dfa.start_state, none)] h
  exact ⟨a1, a2, b1, b2⟩

/-- Witness for C5 (amended) at the input `"c"`. -/
theorem alphabet_gating_rejects_witness :
    (simulate_dfa_ab dfaAB ['c']).error ≠ none ∧
    (simulate_dfa_ab dfaAB ['c']).accepted = false ∧
    (simulate_dfa_01 dfaAB ['c']).error ≠ none ∧
    (simulate_dfa_01 dfaAB ['c']).accepted = false :=
  alphabet_gating_rejects dfaAB ['c'] ⟨'c', by decide, by decide⟩

/-- C6: on the empty input both simulators return the one-element trace
`[(start_state, none)]`, no error, and `accepted = (start_state ∈ accept
states)`; for the two concrete automata (start state `0`, accept states
`{19, 22}` and `{30, 31, 32}`) this yields `accepted = false`. -/
theorem empty_input_result :
    (∀ dfa : DFA,
      (simulate_dfa_ab dfa []).path = [(dfa.start_state, none)] ∧
      (simulate_dfa_ab dfa []).error = none ∧
      ((simulate_dfa_ab dfa []).accepted = true ↔ dfa.start_state ∈ dfa.accept_states_ab) ∧
      (simulate_dfa_01 dfa []).path = [(dfa.start_state, none)] ∧
      (simulate_dfa_01 dfa []).error = none ∧
      ((simulate_dfa_01 dfa []).accepted = true ↔ dfa.start_state ∈ dfa.accept_states_01)) ∧
    dfaAB.start_state = "0" ∧ dfaAB.accept_states_ab = ["19", "22"] ∧
    dfa01.start_state = "0" ∧ dfa01.accept_states_01 = ["30", "31", "32"] ∧
    (simulate_dfa_ab dfaAB []).accepted = false ∧
    (simulate_dfa_01 dfa01 []).accepted = false := by
  constructor
  · intro dfa
    refine ⟨rfl, rfl, ?_, rfl, rfl, ?_⟩ <;> simp [simulate_dfa_ab, simulate_dfa_01, simGo]
  · exact ⟨rfl, rfl, rfl, rfl, by decide, by decide⟩

/-- Counterexample for C7: the claim says construction fails whenever the
well-formedness invariant is violated, but `__init__` performs no check at
all: a definition whose start state `99` is not among its declared states is
constructed successfully, and its malformedness surfaces as a per-simulation
no-transition error. -/
theorem construction_no_validation_counterexample :
    (DFA.init ["0"] ["0"] ['a'] [] "99" [] []).start_state = "99" ∧
    "99" ∉ (DFA.init ["0"] ["0"] ['a'] [] "99" [] []).states_ab ∧
    (simulate_dfa_ab (DFA.init ["0"] ["0"] ['a'] [] "99" [] []) ['a']).error =
      some (SimError.noTransition "99" 'a') := by
  decide

/-- C7 (amended): constructing an AutomatonDefinition never fails and checks
nothing: `__init__` stores its seven arguments verbatim whatever they are, and
the declared-state sets are never consulted by the simulators at all, so a
well-formedness violation is not detected at construction and can surface only
through per-simulation behavior. -/
theorem construction_never_fails :
    (∀ (sab s01 : List String) (al : List Char) (tf : List ((String × Char) × String))
       (st : String) (aab a01 : List String),
      (DFA.init sab s01 al tf st aab a01).states_ab = sab ∧
      (DFA.init sab s01 al tf st aab a01).states_01 = s01 ∧
      (DFA.init sab s01 al tf st aab a01).alphabet = al ∧
      (DFA.init sab s01 al tf st aab a01).transition_function = tf ∧
      (DFA.init sab s01 al tf st aab a01).start_state = st ∧
      (DFA.init sab s01 al tf st aab a01).accept_states_ab = aab ∧
      (DFA.init sab s01 al tf st aab a01).accept_states_01 = a01) ∧
    (∀ (dfa : DFA) (s1 s2 : List String) (input : List Char),
      simulate_dfa_ab { dfa with states_ab := s1, states_01 := s2 } input =
        simulate_dfa_ab dfa input ∧
      simulate_dfa_01 { dfa with states_ab := s1, states_01 := s2 } input =
        simulate_dfa_01 dfa input) := by
  constructor
  · intro sab s01 al tf st aab a01
    exact ⟨rfl, rfl, rfl, rfl, rfl, rfl, rfl⟩
  · intro dfa s1 s2 input
    constructor
    · rw [simulate_dfa_ab, simulate_dfa_ab]
      exact simGo_states_irrel dfa s1 s2 dfa.accept_states_ab input dfa.start_state
        [(dfa.start_state, none)]
    · rw [simulate_dfa_01, simulate_dfa_01]
      exact simGo_states_irrel dfa s1 s2 dfa.accept_states_01 input dfa.start_state
        [(dfa.start_state, none)]

/-- Model of two successive calls of `simulate_dfa_ab` on the same definition
and input, with the (read-only) definition passed along: nothing between the
calls can change it, since the simulator only reads it. -/
def simulate_dfa_ab_twice (dfa : DFA) (input : List Char) : SimResult × SimResult × DFA :=
  (simulate_dfa_ab dfa input, simulate_dfa_ab dfa input, dfa)

/-- Model of two successive calls of `simulate_dfa_01`, as above. -/
def simulate_dfa_01_twice (dfa : DFA) (input : List Char) : SimResult × SimResult × DFA :=
  (simulate_dfa_01 dfa input, simulate_dfa_01 dfa input, dfa)

/-- C8: the simulators are deterministic and non-mutating: two successive
calls on the same definition and input yield identical results (same trace,
same accepted flag, same error), and the definition afterwards is the one that
was passed in. -/
theorem simulate_deterministic (dfa : DFA) (input : List Char) :
    (simulate_dfa_ab_twice dfa input).1 = (simulate_dfa_ab_twice dfa input).2.1 ∧
    (simulate_dfa_ab_twice dfa input).2.2 = dfa ∧
    (simulate_dfa_01_twice dfa input).1 = (simulate_dfa_01_twice dfa input).2.1 ∧
    (simulate_dfa_01_twice dfa input).2.2 = dfa :=
  ⟨rfl, rfl, rfl, rfl⟩

/-- C9: in the a/b table as built, duplicate keys are resolved last-write-wins:
both bindings of `('1','b')` (to `2` and to `3`) and of `('2','a')` (to `1`
and to `3`) are present in the literal, the lookup returns the later target
`3` in both cases, and the simulator follows those resolved targets (on `"bb"`
it steps `0 → 1 → 3`, on `"aa"` it steps `0 → 2 → 3`). -/
theorem duplicate_keys_last_write_wins :
    ((("1", 'b'), "2") ∈ transition_function_ab ∧
      (("1", 'b'), "3") ∈ transition_function_ab ∧
      dictGet transition_function_ab ("1", 'b') = some "3") ∧
    ((("2", 'a'), "1") ∈ transition_function_ab ∧
      (("2", 'a'), "3") ∈ transition_function_ab ∧
      dictGet transition_function_ab ("2", 'a') = some "3") ∧
    (simulate_dfa_ab dfaAB ['b', 'b']).path =
      [("0", none), ("1", some 'b'), ("3", some 'b')] ∧
    (simulate_dfa_ab dfaAB ['a', 'a']).path =
      [("0", none), ("2", some 'a'), ("3", some 'a')] := by
  decide

/-- C10: `DFA.accepts` agrees with the tracing simulators: it returns `True`
exactly when the matching simulator (`simulate_dfa_ab` when the instance
alphabet equals the set `{a, b}`, `simulate_dfa_01` otherwise) returns
`accepted = true` with `error = none` on the same input. -/
theorem accepts_agrees_with_simulate (dfa : DFA) (input : List Char) :
    DFA.accepts dfa input = true ↔
      (if pySetEq dfa.alphabet ['a', 'b'] then
        (simulate_dfa_ab dfa input).accepted = true ∧
          (simulate_dfa_ab dfa input).error = none
      else
        (simulate_dfa_01 dfa input).accepted = true ∧
          (simulate_dfa_01 dfa input).error = none) := by
  by_cases hset : pySetEq dfa.alphabet ['a', 'b'] = true
  · have h := acceptsGo_agrees dfa dfa.accept_states_ab (by simp [hset]) input
      dfa.start_state [(dfa.start_state, none)]
    simpa [DFA.accepts, simulate_dfa_ab, hset] using h
  · have h := acceptsGo_agrees dfa dfa.accept_states_01 (by simp [hset]) input
      dfa.start_state [(dfa.start_state, none)]
    simpa [DFA.accepts, simulate_dfa_01, hset] using h

end AutomataSim
